import Mathlib

/-!
Verification development for the workflow-backups repository.

The Python sources under src/ are shallowly embedded below:

* Compiled regular expressions (re.compile, Pattern.match) become a small
  regex type with Brzozowski derivatives; Pattern.match is the
  start-anchored matcher.
* RepoMatcher (src/backup/repo_matcher.py) keeps its exact-name lists and
  compiled pattern lists.
* S3Handler (src/backup/s3_handler.py) is embedded at the transport level:
  the outcomes of the boto3 head_object and upload_file calls are explicit
  values (found / ClientError / other exception), and the handler functions
  are total functions of those outcomes.  An uncaught Python exception is
  an Except.error result.
* IssuesHandler.export_issues (src/backup/issues_handler.py) becomes a pure
  function from the raw issue list to the export document.  The stable
  in-place list sort keyed on the issue number is List.insertionSort on the
  number field.
* BackupManager.backup_repositories (src/backup/backup_manager.py) becomes
  explicit state passing over a blob store modelled as an association list
  from full object keys to byte sizes, with the external world (subprocess
  results, transport faults, reported sizes) given by a deterministic
  environment record.  Every mutating or expensive external action the loop
  performs is also recorded in an explicit action trace, so frame claims
  can be stated.
* run_backup (src/main.py) becomes a function computing the process exit
  code from the same model.
-/

namespace WorkflowBackups

/-! ## Regular expressions

Python re.compile produces a pattern object; pattern.match(s) is the
start-anchored test used by RepoMatcher.  We model patterns as a regex
syntax with character predicates (covering literals, dot and classes) and
define matching by Brzozowski derivatives. -/

inductive Regex where
| emptyset : Regex
| eps : Regex
| pred : (Char → Bool) → Regex
| alt : Regex → Regex → Regex
| cat : Regex → Regex → Regex
| star : Regex → Regex

def Regex.nullable : Regex → Bool
| .emptyset => false
| .eps => true
| .pred _ => false
| .alt a b => a.nullable || b.nullable
| .cat a b => a.nullable && b.nullable
| .star _ => true

def Regex.deriv : Regex → Char → Regex
| .emptyset, _ => .emptyset
| .eps, _ => .emptyset
| .pred p, c => if p c then .eps else .emptyset
| .alt a b, c => .alt (a.deriv c) (b.deriv c)
| .cat a b, c =>
    if a.nullable then .alt (.cat (a.deriv c) b) (b.deriv c)
    else .cat (a.deriv c) b
| .star a, c => .cat (a.deriv c) (.star a)

/-- Whole-list match (the semantics of re.fullmatch): the regex generates
exactly this character list. -/
def Regex.fullMatchL : Regex → List Char → Bool
| r, [] => r.nullable
| r, c :: cs => (r.deriv c).fullMatchL cs

/-- Start-anchored match (the semantics of re.Pattern.match): the regex
generates some leading segment of the character list. -/
def Regex.matchL : Regex → List Char → Bool
| r, [] => r.nullable
| r, c :: cs => r.nullable || (r.deriv c).matchL cs

/-- Pattern.match on a Python string. -/
def Regex.reMatch (r : Regex) (s : String) : Bool :=
  r.matchL s.data

/-- The start-anchored matcher accepts exactly the lists with a leading
segment generated by the regex. -/
theorem Regex.matchL_iff_exists (r : Regex) (l : List Char) :
    r.matchL l = true ↔ ∃ p, p <+: l ∧ r.fullMatchL p = true := by
  induction l generalizing r with
  | nil =>
      simp only [Regex.matchL]
      constructor
      · intro h
        exact ⟨[], List.nil_prefix, h⟩
      · rintro ⟨p, hp, hm⟩
        rcases List.prefix_nil.mp hp with rfl
        exact hm
  | cons c cs ih =>
      simp only [Regex.matchL, Bool.or_eq_true]
      constructor
      · rintro (h | h)
        · exact ⟨[], List.nil_prefix, h⟩
        · rcases (ih _).mp h with ⟨p, hp, hm⟩
          exact ⟨c :: p, List.cons_prefix_cons.mpr ⟨rfl, hp⟩, hm⟩
      · rintro ⟨p, hp, hm⟩
        cases p with
        | nil => exact Or.inl hm
        | cons d q =>
            rcases List.cons_prefix_cons.mp hp with ⟨rfl, hq⟩
            exact Or.inr ((ih _).mpr ⟨q, hq, hm⟩)

/-! ## RepoMatcher (src/backup/repo_matcher.py) -/

structure RepoMatcher where
  patterns : List Regex
  repositories : List String
  exclude_archived : Bool
  exclude_patterns : List Regex
  exclude_repositories : List String

/-- RepoMatcher.matches: exact-name set lookup first, then the compiled
include patterns via pattern.match (early-returning loop = List.any). -/
def RepoMatcher.matches (m : RepoMatcher) (repo_name : String) : Bool :=
  m.repositories.contains repo_name || m.patterns.any (fun p => p.reMatch repo_name)

/-- RepoMatcher.is_excluded: exact exclude names, then exclude patterns. -/
def RepoMatcher.isExcluded (m : RepoMatcher) (repo_name : String) : Bool :=
  m.exclude_repositories.contains repo_name
    || m.exclude_patterns.any (fun p => p.reMatch repo_name)

/-! ## S3Handler at the transport level (src/backup/s3_handler.py)

boto3 calls can return normally, raise a botocore ClientError (carrying an
error code such as 404 or AccessDenied), or raise some other exception
(connection failures and the like).  The handler methods are total
functions of those visible outcomes; a Python exception the method does
not catch is the Except.error case. -/

inductive HeadResult where
| found : Nat → HeadResult
| clientError : String → HeadResult
| otherError : String → HeadResult
deriving DecidableEq, Repr

inductive PutResult where
| ok : PutResult
| clientError : String → PutResult
| otherError : String → PutResult
deriving DecidableEq, Repr

namespace S3Handler

/-- S3Handler.backup_exists: head_object inside try/except ClientError.
Any ClientError at all is caught and turned into False; only a
non-ClientError exception escapes to the caller. -/
def backup_exists : HeadResult → Except String Bool
| .found _ => .ok true
| .clientError _ => .ok false
| .otherError m => .error m

/-- S3Handler.verify_upload: head_object, compare ContentLength with the
local byte size; a ClientError is caught and yields False, any other
exception escapes. -/
def verify_upload (head : HeadResult) (localSize : Nat) : Except String Bool :=
  match head with
  | .found s3Size => .ok (s3Size == localSize)
  | .clientError _ => .ok false
  | .otherError m => .error m

/-- S3Handler.upload_file: run the transport put; on success verify by
size comparison.  The surrounding try/except ClientError/except Exception
turns every failure path, including an exception escaping verify_upload,
into False, so the method itself never raises. -/
def upload_file (put : PutResult) (head : HeadResult) (localSize : Nat) : Bool :=
  match put with
  | .ok =>
      match verify_upload head localSize with
      | .ok b => b
      | .error _ => false
  | .clientError _ => false
  | .otherError _ => false

end S3Handler

/-! ## IssuesHandler (src/backup/issues_handler.py) -/

structure RawComment where
  id : Nat
  author : Option String
  created_at : Option String
  body : String
deriving DecidableEq, Repr

/-- A raw issue as returned by repo.get_issues(state="all"): the fields
export_issues reads, with pull_request recording whether the item carries
a pull-request association. -/
structure RawIssue where
  number : Nat
  title : String
  html_url : String
  state : String
  author : Option String
  created_at : Option String
  updated_at : Option String
  closed_at : Option String
  closed_by : Option String
  labels : List String
  milestone : Option String
  assignees : List String
  body : String
  comments : List RawComment
  pull_request : Bool
deriving DecidableEq, Repr

structure SerializedIssue where
  number : Nat
  title : String
  url : String
  state : String
  author : Option String
  created_at : Option String
  updated_at : Option String
  closed_at : Option String
  closed_by : Option String
  labels : List String
  milestone : Option String
  assignees : List String
  body : String
  comment_count : Nat
  comments : List RawComment
deriving DecidableEq, Repr

structure ExportMetadata where
  repo : String
  exported_at : String
  total_issues : Nat
  open_issues : Nat
  closed_issues : Nat
deriving DecidableEq, Repr

structure ExportDoc where
  metadata : ExportMetadata
  issues : List SerializedIssue
deriving DecidableEq, Repr

namespace IssuesHandler

/-- IssuesHandler.serialize_issue (the private serializer): field-for-field
translation of one issue dictionary. -/
def serialize_issue (i : RawIssue) : SerializedIssue :=
  { number := i.number
    title := i.title
    url := i.html_url
    state := i.state
    author := i.author
    created_at := i.created_at
    updated_at := i.updated_at
    closed_at := i.closed_at
    closed_by := i.closed_by
    labels := i.labels
    milestone := i.milestone
    assignees := i.assignees
    body := i.body
    comment_count := i.comments.length
    comments := i.comments }

/-- Sort key used by export_issues: ascending issue number.  Python uses
the stable built-in sort with key number; insertionSort realises the same
sort-by-key semantics with kernel-reducible recursion. -/
def numberLe (a b : SerializedIssue) : Prop := a.number ≤ b.number

instance : DecidableRel numberLe := fun a b => Nat.decLe a.number b.number

instance : IsTotal SerializedIssue numberLe := ⟨fun a b => Nat.le_total a.number b.number⟩

instance : IsTrans SerializedIssue numberLe := ⟨fun _ _ _ hab hbc => Nat.le_trans hab hbc⟩

/-- IssuesHandler.export_issues: walk the issue list, skip items carrying
a pull-request association, serialize the rest, count open/closed among
the retained items, sort the serialized list ascending by number, and
wrap it with the metadata block. -/
def export_issues (repo_full_name : String) (exported_at : String)
    (raw : List RawIssue) : ExportDoc :=
  let retained := raw.filter (fun i => !i.pull_request)
  let issues_data := List.insertionSort numberLe (retained.map serialize_issue)
  let open_count := (retained.filter (fun i => i.state == "open")).length
  let closed_count := (retained.filter (fun i => !(i.state == "open"))).length
  { metadata :=
      { repo := repo_full_name
        exported_at := exported_at
        total_issues := issues_data.length
        open_issues := open_count
        closed_issues := closed_count }
    issues := issues_data }

end IssuesHandler

/-! ## BackupManager (src/backup/backup_manager.py)

The blob store is an association list from full object keys to the byte
size the service stores.  The external world of one run is a deterministic
environment: whether head_object raises a non-ClientError exception for a
key, whether the clone+tar subprocess pipeline succeeds for a repository,
whether the transport put succeeds for a key, which ContentLength the
service reports back after a put, the local archive size, and whether the
GitHub issue walk succeeds.  The same environment drives repeated runs, so
idempotence over a shared store can be stated. -/

structure Repo where
  name : String
  full_name : String
deriving DecidableEq, Repr

def Store := List (String × Nat)

instance : DecidableEq Store :=
  inferInstanceAs (DecidableEq (List (String × Nat)))

def Store.lookupSize : Store → String → Option Nat
| [], _ => none
| (k, v) :: s, key => if k = key then some v else Store.lookupSize s key

/-- Existence of an object: what a fault-free head_object reports. -/
def Store.mem (s : Store) (k : String) : Bool :=
  (s.lookupSize k).isSome

/-- A completed put stores the object under its key. -/
def Store.putObj (s : Store) (k : String) (v : Nat) : Store :=
  (k, v) :: s

/-- External world of a run, deterministic per key / repository name. -/
structure Env where
  probeFault : String → Bool
  putOk : String → Bool
  putSize : String → Nat → Nat
  cloneOk : String → Bool
  archiveSize : String → Nat
  issuesExportOk : String → Bool
  issuesJsonSize : String → Nat

/-- Configuration of one backup_repositories run.  pfx is the S3Handler
object-key namespace string prepended to every object key; date is the
UTC date string %Y%m%d fixed for the whole run. -/
structure BackupConfig where
  skip_existing : Bool
  dry_run : Bool
  issues_enabled : Bool
  pfx : String
  date : String

/-- Backup key computed in the loop body: name/name-date.tar.gz. -/
def backupKey (name date : String) : String :=
  name ++ "/" ++ name ++ "-" ++ date ++ ".tar.gz"

/-- Issues key computed in backup_issues: name/name-issues-date.json. -/
def issuesKey (name date : String) : String :=
  name ++ "/" ++ name ++ "-issues-" ++ date ++ ".json"

/-- Full object key as S3Handler builds it. -/
def fullKey (pfx okey : String) : String := pfx ++ okey

/-- The external actions the loop can perform, recorded as a trace so that
frame properties (what simulate mode must not do) are statable. -/
inductive Action where
| clone : String → Action
| archive : String → Action
| putObject : String → Action
| issueExport : String → Action
deriving DecidableEq, Repr

def Action.isPut : Action → Bool
| .putObject _ => true
| _ => false

/-- The existence probe as the loop sees it: backup_exists over the store,
with a non-ClientError fault escaping as an error. -/
def probe (env : Env) (store : Store) (fkey : String) : Except String Bool :=
  if env.probeFault fkey then .error "head_object_error"
  else .ok (store.mem fkey)

/-- S3Handler.upload_file as it acts on the store: a successful transport
put stores the object with the size the service reports, and the result is
the size verification; a failed transport stores nothing and yields false.
The returned trace records the completed put. -/
def uploadToStore (env : Env) (store : Store) (fkey : String) (localSize : Nat) :
    Bool × Store × List Action :=
  if env.putOk fkey then
    let reported := env.putSize fkey localSize
    (reported == localSize, store.putObj fkey reported, [Action.putObject fkey])
  else
    (false, store, [])

inductive Outcome where
| skipped : String → Outcome
| wouldBackup : String → Outcome
| succeeded : Outcome
| failed : String → Outcome
deriving DecidableEq, Repr

inductive IssuesOutcome where
| isucceeded : IssuesOutcome
| ifailed : String → IssuesOutcome
| iskipped : IssuesOutcome
deriving DecidableEq, Repr

/-- Inner part of BackupManager.backup_issues after the existence check:
export the issues (the GitHub API walk can fail), then upload the JSON
document; every exception is caught by the method and recorded as a
failure. -/
def backupIssuesUpload (env : Env) (store : Store) (name fkey : String) :
    IssuesOutcome × Store × List Action :=
  if env.issuesExportOk name then
    let r := uploadToStore env store fkey (env.issuesJsonSize name)
    ((if r.1 then .isucceeded else .ifailed "upload_failed"),
      r.2.1, Action.issueExport name :: r.2.2)
  else
    (.ifailed "export_error", store, [Action.issueExport name])

/-- BackupManager.backup_issues: skip when the issues object already
exists (when skip_existing), else export and upload; a probe fault is an
exception caught by the method itself and recorded as a failure. -/
def backupIssues (env : Env) (cfg : BackupConfig) (store : Store) (name : String) :
    IssuesOutcome × Store × List Action :=
  let fkey := fullKey cfg.pfx (issuesKey name cfg.date)
  if cfg.skip_existing then
    match probe env store fkey with
    | .error e => (.ifailed e, store, [])
    | .ok true => (.iskipped, store, [])
    | .ok false => backupIssuesUpload env store name fkey
  else
    backupIssuesUpload env store name fkey

/-- Result of processing one repository in the loop body. -/
structure StepResult where
  outcome : Outcome
  issues : Option IssuesOutcome
  store : Store
  acts : List Action

/-- Tail of the loop body once the skip-existing branch is passed: dry-run
records would-backup; otherwise clone+tar (a non-zero exit returns false
from backup_single_repo, recorded as upload_failed), then upload; on
success the issue backup runs when enabled. -/
def processRepoBackup (env : Env) (cfg : BackupConfig) (store : Store)
    (repo : Repo) (okey fkey : String) : StepResult :=
  if cfg.dry_run then
    ⟨.wouldBackup okey, none, store, []⟩
  else if !env.cloneOk repo.name then
    ⟨.failed "upload_failed", none, store, [.clone repo.name]⟩
  else
    let r := uploadToStore env store fkey (env.archiveSize repo.name)
    let pacts := Action.clone repo.name :: Action.archive repo.name :: r.2.2
    if r.1 then
      if cfg.issues_enabled then
        let ir := backupIssues env cfg r.2.1 repo.name
        ⟨.succeeded, some ir.1, ir.2.1, pacts ++ ir.2.2⟩
      else
        ⟨.succeeded, none, r.2.1, pacts⟩
    else
      ⟨.failed "upload_failed", none, r.2.1, pacts⟩

/-- One iteration of the backup_repositories loop for one repository.
The existence probe runs first when skip_existing; a probe exception is
caught by the per-repository try/except and recorded as a failure; an
existing key records skipped and still attempts the issue backup when
enabled and not in dry-run. -/
def processRepo (env : Env) (cfg : BackupConfig) (store : Store) (repo : Repo) :
    StepResult :=
  let okey := backupKey repo.name cfg.date
  let fkey := fullKey cfg.pfx okey
  if cfg.skip_existing then
    match probe env store fkey with
    | .error e => ⟨.failed e, none, store, []⟩
    | .ok true =>
        if cfg.issues_enabled && !cfg.dry_run then
          let ir := backupIssues env cfg store repo.name
          ⟨.skipped "already_exists", some ir.1, ir.2.1, ir.2.2⟩
        else
          ⟨.skipped "already_exists", none, store, []⟩
    | .ok false => processRepoBackup env cfg store repo okey fkey
  else
    processRepoBackup env cfg store repo okey fkey

structure IssuesResults where
  successful : List String
  failed : List (String × String)
  skipped : List String
deriving DecidableEq, Repr

/-- The results dictionary backup_repositories builds. -/
structure Results where
  total_repos : Nat
  successful : List String
  failed : List (String × String)
  skipped : List (String × String)
  would_backup : List (String × String)
  issues_backup : IssuesResults
  dry_run : Bool
deriving DecidableEq, Repr

/-- Record the terminal outcome of one repository into the results
dictionary: exactly one of the four outcome lists receives one entry. -/
def recordPrimary (res : Results) (repo : Repo) : Outcome → Results
| .skipped r => { res with skipped := res.skipped ++ [(repo.full_name, r)] }
| .wouldBackup k =>
    { res with would_backup := res.would_backup ++ [(repo.full_name, k)] }
| .succeeded => { res with successful := res.successful ++ [repo.full_name] }
| .failed r => { res with failed := res.failed ++ [(repo.full_name, r)] }

/-- Record the issue-backup outcome, when the issue backup was attempted,
into the parallel issues_backup outcome lists. -/
def recordIssues (res : Results) (repo : Repo) : Option IssuesOutcome → Results
| none => res
| some .isucceeded =>
    { res with issues_backup :=
        { res.issues_backup with
            successful := res.issues_backup.successful ++ [repo.full_name] } }
| some (.ifailed r) =>
    { res with issues_backup :=
        { res.issues_backup with
            failed := res.issues_backup.failed ++ [(repo.full_name, r)] } }
| some .iskipped =>
    { res with issues_backup :=
        { res.issues_backup with
            skipped := res.issues_backup.skipped ++ [repo.full_name] } }

/-- Record everything one loop iteration produced for one repository. -/
def recordOutcome (res : Results) (repo : Repo) (st : StepResult) : Results :=
  recordIssues (recordPrimary res repo st.outcome) repo st.issues

/-- The sequential loop of backup_repositories: one repository is fully
processed before the next begins, threading the store and accumulating
results and the action trace. -/
def runRepos (env : Env) (cfg : BackupConfig) :
    List Repo → Store → Results → List Action → Results × Store × List Action
| [], store, res, tr => (res, store, tr)
| repo :: rest, store, res, tr =>
    let st := processRepo env cfg store repo
    runRepos env cfg rest st.store (recordOutcome res repo st) (tr ++ st.acts)

/-- BackupManager.backup_repositories over an already filtered repository
list. -/
def backup_repositories (env : Env) (cfg : BackupConfig) (repos : List Repo)
    (store : Store) : Results × Store × List Action :=
  runRepos env cfg repos store
    { total_repos := repos.length
      successful := []
      failed := []
      skipped := []
      would_backup := []
      issues_backup := ⟨[], [], []⟩
      dry_run := cfg.dry_run } []

/-! ## main.run_backup (src/main.py)

run_backup checks the GITHUB_TOKEN (Python falsiness: unset or empty),
the enabled flag, resolves the organization from the command line or the
configuration (again by falsiness), then runs the backup.  The
BackupManager it constructs passes no backup_metadata, so the issues
handler is disabled for runs started from main.  In dry-run mode it
returns 0 after reporting; otherwise it returns 1 exactly when the failed
list is non-empty. -/

/-- Python falsiness of an optional string: None or the empty string. -/
def strFalsy : Option String → Bool
| none => true
| some s => s == ""

def run_backup (github_token : Option String) (enabled : Bool)
    (arg_org cfg_org : Option String) (force dry_run : Bool)
    (env : Env) (pfx date : String) (repos : List Repo) (store : Store) : Nat :=
  if strFalsy github_token then 1
  else if !enabled then 0
  else
    let organization := if strFalsy arg_org then cfg_org else arg_org
    if strFalsy organization then 1
    else
      let cfg : BackupConfig :=
        { skip_existing := !force, dry_run := dry_run, issues_enabled := false,
          pfx := pfx, date := date }
      let r := backup_repositories env cfg repos store
      if r.1.dry_run then 0
      else if !r.1.failed.isEmpty then 1
      else 0

/-! ## Helper definitions and lemmas -/

/-- A literal-character regex. -/
def litChar (c : Char) : Regex := Regex.pred (fun d => d == c)

/-- A literal-string regex, as re.compile of a plain literal produces. -/
def lit (s : String) : Regex :=
  s.data.foldr (fun c r => Regex.cat (litChar c) r) Regex.eps

/-- Splitting a filtered length over a predicate and its negation. -/
theorem length_filter_add_length_filter_not {α : Type} (p : α → Bool) (l : List α) :
    (l.filter p).length + (l.filter (fun x => !p x)).length = l.length := by
  induction l with
  | nil => rfl
  | cons x xs ih => by_cases h : p x = true <;> simp [List.filter, h] <;> omega

/-- A concrete raw issue for the worked examples of the spec. -/
def mkIssue (n : Nat) (st : String) (pr : Bool) : RawIssue :=
  { number := n, title := "t", html_url := "u", state := st, author := some "a"
    created_at := some "c", updated_at := some "d", closed_at := none
    closed_by := none, labels := [], milestone := none, assignees := []
    body := "b", comments := [], pull_request := pr }

/-- The repository names recorded in the four terminal outcome lists. -/
def Results.outcomeNames (res : Results) : List String :=
  res.successful ++ res.failed.map Prod.fst ++ res.skipped.map Prod.fst
    ++ res.would_backup.map Prod.fst

/-- The repository names recorded in the three issue-backup outcome lists. -/
def Results.issuesNames (res : Results) : List String :=
  res.issues_backup.successful ++ res.issues_backup.failed.map Prod.fst
    ++ res.issues_backup.skipped

theorem recordIssues_outcomeNames (res : Results) (repo : Repo)
    (io : Option IssuesOutcome) :
    (recordIssues res repo io).outcomeNames = res.outcomeNames := by
  cases io with
  | none => rfl
  | some i => cases i <;> rfl

theorem recordPrimary_outcomeNames (res : Results) (repo : Repo) (o : Outcome) :
    ((recordPrimary res repo o).outcomeNames).Perm
      (res.outcomeNames ++ [repo.full_name]) := by
  cases o <;>
    (rw [List.perm_iff_count]
     intro a
     simp only [Results.outcomeNames, recordPrimary, List.map_append,
       List.count_append, List.map_cons, List.map_nil]
     omega)

theorem recordPrimary_issuesNames (res : Results) (repo : Repo) (o : Outcome) :
    (recordPrimary res repo o).issuesNames = res.issuesNames := by
  cases o <;> rfl

theorem recordIssues_issuesNames (res : Results) (repo : Repo)
    (io : Option IssuesOutcome) :
    ((recordIssues res repo io).issuesNames).Perm
      (res.issuesNames ++ (if io.isSome then [repo.full_name] else [])) := by
  cases io with
  | none => simp [recordIssues]
  | some i =>
      cases i <;>
        (rw [List.perm_iff_count]
         intro a
         simp only [Results.issuesNames, recordIssues, Option.isSome_some, if_true,
           List.map_append, List.count_append, List.map_cons, List.map_nil]
         omega)

theorem recordOutcome_dry_run (res : Results) (repo : Repo) (st : StepResult) :
    (recordOutcome res repo st).dry_run = res.dry_run := by
  unfold recordOutcome
  have h1 : (recordPrimary res repo st.outcome).dry_run = res.dry_run := by
    cases st.outcome <;> rfl
  cases hst : st.issues with
  | none => simpa [recordIssues] using h1
  | some i => cases i <;> simpa [recordIssues] using h1

theorem runRepos_outcomeNames (env : Env) (cfg : BackupConfig) :
    ∀ (repos : List Repo) (store : Store) (res : Results) (tr : List Action),
      ((runRepos env cfg repos store res tr).1.outcomeNames).Perm
        (res.outcomeNames ++ repos.map Repo.full_name) := by
  intro repos
  induction repos with
  | nil => intro store res tr; simp [runRepos]
  | cons repo rest ih =>
      intro store res tr
      simp only [runRepos, List.map_cons]
      refine (ih _ _ _).trans ?_
      have h2 : ((recordOutcome res repo (processRepo env cfg store repo)).outcomeNames).Perm
          (res.outcomeNames ++ [repo.full_name]) := by
        unfold recordOutcome
        rw [recordIssues_outcomeNames]
        exact recordPrimary_outcomeNames res repo _
      refine (h2.append_right _).trans ?_
      rw [List.append_assoc, List.singleton_append]

theorem runRepos_dry_run (env : Env) (cfg : BackupConfig) :
    ∀ (repos : List Repo) (store : Store) (res : Results) (tr : List Action),
      (runRepos env cfg repos store res tr).1.dry_run = res.dry_run := by
  intro repos
  induction repos with
  | nil => intro store res tr; rfl
  | cons repo rest ih =>
      intro store res tr
      simp only [runRepos]
      rw [ih, recordOutcome_dry_run]

/-- In dry-run mode one loop iteration mutates nothing, performs no
external action, never attempts the issue backup, and ends in skipped,
would-backup, or — only when the existence probe raises — failed. -/
theorem processRepo_dryRun (env : Env) (cfg : BackupConfig) (store : Store)
    (repo : Repo) (h : cfg.dry_run = true) :
    (processRepo env cfg store repo).store = store
    ∧ (processRepo env cfg store repo).acts = []
    ∧ (processRepo env cfg store repo).issues = none
    ∧ ((processRepo env cfg store repo).outcome = Outcome.skipped "already_exists"
        ∨ (processRepo env cfg store repo).outcome
            = Outcome.wouldBackup (backupKey repo.name cfg.date)
        ∨ ((processRepo env cfg store repo).outcome = Outcome.failed "head_object_error"
            ∧ cfg.skip_existing = true
            ∧ env.probeFault (fullKey cfg.pfx (backupKey repo.name cfg.date)) = true)) := by
  unfold processRepo processRepoBackup probe
  cases hse : cfg.skip_existing with
  | false => simp [h]
  | true =>
      cases hf : env.probeFault (fullKey cfg.pfx (backupKey repo.name cfg.date)) with
      | true => simp [h, hf]
      | false =>
          cases hm : store.mem (fullKey cfg.pfx (backupKey repo.name cfg.date)) with
          | true => simp [h, hf, hm]
          | false => simp [h, hf, hm]

/-- The whole dry-run loop mutates nothing, traces no action, succeeds
nobody, and fails only repositories whose existence probe raised. -/
theorem runRepos_dryRun_frame (env : Env) (cfg : BackupConfig) (h : cfg.dry_run = true) :
    ∀ (repos : List Repo) (store : Store) (res : Results) (tr : List Action),
      (runRepos env cfg repos store res tr).2.1 = store
      ∧ (runRepos env cfg repos store res tr).2.2 = tr
      ∧ (runRepos env cfg repos store res tr).1.successful = res.successful
      ∧ ∀ pr ∈ (runRepos env cfg repos store res tr).1.failed,
          pr ∈ res.failed
            ∨ ∃ repo ∈ repos, pr.1 = repo.full_name
                ∧ cfg.skip_existing = true
                ∧ env.probeFault (fullKey cfg.pfx (backupKey repo.name cfg.date)) = true := by
  intro repos
  induction repos with
  | nil =>
      intro store res tr
      exact ⟨rfl, rfl, rfl, fun pr hpr => Or.inl hpr⟩
  | cons repo rest ih =>
      intro store res tr
      obtain ⟨hs, ha, hi, ho⟩ := processRepo_dryRun env cfg store repo h
      simp only [runRepos]
      obtain ⟨ihs, iht, ihsucc, ihfail⟩ :=
        ih (processRepo env cfg store repo).store
          (recordOutcome res repo (processRepo env cfg store repo))
          (tr ++ (processRepo env cfg store repo).acts)
      have hrec : recordOutcome res repo (processRepo env cfg store repo)
          = recordPrimary res repo (processRepo env cfg store repo).outcome := by
        unfold recordOutcome
        rw [hi]
        rfl
      refine ⟨by rw [ihs, hs], by rw [iht, ha, List.append_nil], ?_, ?_⟩
      · rw [ihsucc, hrec]
        rcases ho with h1 | h1 | ⟨h1, _, _⟩ <;> rw [h1] <;> rfl
      · intro pr hpr
        rcases ihfail pr hpr with hin | ⟨r, hr, hpr1, hse, hpf⟩
        · rw [hrec] at hin
          rcases ho with h1 | h1 | ⟨h1, hse, hpf⟩
          · rw [h1] at hin
            exact Or.inl hin
          · rw [h1] at hin
            exact Or.inl hin
          · rw [h1] at hin
            simp only [recordPrimary, List.mem_append, List.mem_singleton] at hin
            rcases hin with hin | hin
            · exact Or.inl hin
            · refine Or.inr ⟨repo, List.mem_cons_self _ _, ?_, hse, hpf⟩
              rw [hin]
        · exact Or.inr ⟨r, List.mem_cons_of_mem _ hr, hpr1, hse, hpf⟩

/-! ### Store monotonicity and the idempotence lemmas

The store only ever grows: no loop branch deletes an object.  Together
with the determinism of the environment this yields the idempotence of a
second same-day run. -/

theorem Store.mem_putObj_self (s : Store) (k : String) (v : Nat) :
    (s.putObj k v).mem k = true := by
  simp [Store.mem, Store.putObj, Store.lookupSize]

theorem Store.mem_putObj_of_mem (s : Store) (k k' : String) (v : Nat)
    (h : s.mem k = true) : (s.putObj k' v).mem k = true := by
  by_cases hk : k' = k
  · simp [Store.mem, Store.putObj, Store.lookupSize, hk]
  · simp only [Store.mem, Store.putObj, Store.lookupSize, if_neg hk]
    exact h

theorem uploadToStore_mono (env : Env) (store : Store) (fkey : String)
    (n : Nat) (k : String) (h : store.mem k = true) :
    (uploadToStore env store fkey n).2.1.mem k = true := by
  unfold uploadToStore
  by_cases hp : env.putOk fkey = true <;> simp [hp]
  · exact Store.mem_putObj_of_mem _ _ _ _ h
  · exact h

theorem backupIssuesUpload_mono (env : Env) (store : Store) (name fkey : String)
    (k : String) (h : store.mem k = true) :
    (backupIssuesUpload env store name fkey).2.1.mem k = true := by
  unfold backupIssuesUpload
  by_cases he : env.issuesExportOk name = true <;> simp [he]
  · exact uploadToStore_mono env store fkey _ k h
  · exact h

theorem backupIssues_mono (env : Env) (cfg : BackupConfig) (store : Store)
    (name : String) (k : String) (h : store.mem k = true) :
    (backupIssues env cfg store name).2.1.mem k = true := by
  unfold backupIssues probe
  by_cases hse : cfg.skip_existing = true <;> simp [hse]
  · by_cases hf : env.probeFault (fullKey cfg.pfx (issuesKey name cfg.date)) = true <;>
      simp [hf]
    · exact h
    · by_cases hm : store.mem (fullKey cfg.pfx (issuesKey name cfg.date)) = true <;>
        simp [hm]
      · exact h
      · exact backupIssuesUpload_mono env store name _ k h
  · exact backupIssuesUpload_mono env store name _ k h

theorem processRepoBackup_mono (env : Env) (cfg : BackupConfig) (store : Store)
    (repo : Repo) (okey fkey : String) (k : String) (h : store.mem k = true) :
    (processRepoBackup env cfg store repo okey fkey).store.mem k = true := by
  unfold processRepoBackup
  by_cases hd : cfg.dry_run = true <;> simp [hd]
  · exact h
  · by_cases hc : env.cloneOk repo.name = true <;> simp [hc]
    swap
    · exact h
    · by_cases hu : (uploadToStore env store fkey (env.archiveSize repo.name)).1 = true <;>
        simp [hu]
      · by_cases hi : cfg.issues_enabled = true <;> simp [hi]
        · exact backupIssues_mono env cfg _ _ k (uploadToStore_mono env store fkey _ k h)
        · exact uploadToStore_mono env store fkey _ k h
      · exact uploadToStore_mono env store fkey _ k h

theorem processRepo_mono (env : Env) (cfg : BackupConfig) (store : Store)
    (repo : Repo) (k : String) (h : store.mem k = true) :
    (processRepo env cfg store repo).store.mem k = true := by
  unfold processRepo probe
  by_cases hse : cfg.skip_existing = true <;> simp [hse]
  · by_cases hf : env.probeFault (fullKey cfg.pfx (backupKey repo.name cfg.date)) = true <;>
      simp [hf]
    · exact h
    · by_cases hm : store.mem (fullKey cfg.pfx (backupKey repo.name cfg.date)) = true <;>
        simp [hm]
      · by_cases hi : cfg.issues_enabled = true ∧ cfg.dry_run = false
        · rw [if_pos hi]
          exact backupIssues_mono env cfg store repo.name k h
        · rw [if_neg hi]
          exact h
      · exact processRepoBackup_mono env cfg store repo _ _ k h
  · exact processRepoBackup_mono env cfg store repo _ _ k h

theorem runRepos_mono (env : Env) (cfg : BackupConfig) :
    ∀ (repos : List Repo) (store : Store) (res : Results) (tr : List Action)
      (k : String), store.mem k = true →
      (runRepos env cfg repos store res tr).2.1.mem k = true := by
  intro repos
  induction repos with
  | nil => intro store res tr k h; exact h
  | cons repo rest ih =>
      intro store res tr k h
      exact ih _ _ _ k (processRepo_mono env cfg store repo k h)

/-- After one iteration with skip-existing on and both simulate and issues
off, either the backup key is present in the resulting store, or this
iteration could never store it (probe fault, clone failure, or transport
put failure), deterministically in the environment. -/
theorem processRepo_post (env : Env) (pfx date : String) (store : Store) (repo : Repo) :
    (processRepo env ⟨true, false, false, pfx, date⟩ store repo).store.mem
        (fullKey pfx (backupKey repo.name date)) = true
    ∨ env.probeFault (fullKey pfx (backupKey repo.name date)) = true
    ∨ env.cloneOk repo.name = false
    ∨ env.putOk (fullKey pfx (backupKey repo.name date)) = false := by
  unfold processRepo processRepoBackup probe uploadToStore
  cases hf : env.probeFault (fullKey pfx (backupKey repo.name date)) with
  | true => exact Or.inr (Or.inl rfl)
  | false =>
      cases hm : store.mem (fullKey pfx (backupKey repo.name date)) with
      | true =>
          refine Or.inl ?_
          simp [hf, hm]
      | false =>
          cases hc : env.cloneOk repo.name with
          | false => exact Or.inr (Or.inr (Or.inl rfl))
          | true =>
              cases hp : env.putOk (fullKey pfx (backupKey repo.name date)) with
              | false => exact Or.inr (Or.inr (Or.inr rfl))
              | true =>
                  refine Or.inl ?_
                  cases hs : (env.putSize (fullKey pfx (backupKey repo.name date))
                      (env.archiveSize repo.name) == env.archiveSize repo.name) <;>
                    simp [hf, hm, hc, hp, hs, Store.mem_putObj_self]

/-- With issues disabled, no iteration ever attempts the issue backup. -/
theorem processRepo_issues_none (env : Env) (pfx date : String) (store : Store)
    (repo : Repo) :
    (processRepo env ⟨true, false, false, pfx, date⟩ store repo).issues = none := by
  unfold processRepo processRepoBackup probe
  cases hf : env.probeFault (fullKey pfx (backupKey repo.name date)) with
  | true => simp [hf]
  | false =>
      cases hm : store.mem (fullKey pfx (backupKey repo.name date)) with
      | true => simp [hf, hm]
      | false =>
          cases hc : env.cloneOk repo.name with
          | false => simp [hf, hm, hc]
          | true =>
              cases hs : (uploadToStore env store
                  (fullKey pfx (backupKey repo.name date)) (env.archiveSize repo.name)).1 <;>
                simp [hf, hm, hc, hs]

/-- An iteration that cannot newly store the backup key (it is already
present, or this environment never lets this repository reach a completed
put) leaves the store unchanged, completes no put, and — when the key is
present and the probe does not fault — ends in skipped. -/
theorem processRepo_noop (env : Env) (pfx date : String) (store : Store) (repo : Repo)
    (h : store.mem (fullKey pfx (backupKey repo.name date)) = true
      ∨ env.probeFault (fullKey pfx (backupKey repo.name date)) = true
      ∨ env.cloneOk repo.name = false
      ∨ env.putOk (fullKey pfx (backupKey repo.name date)) = false) :
    (processRepo env ⟨true, false, false, pfx, date⟩ store repo).store = store
    ∧ (processRepo env ⟨true, false, false, pfx, date⟩ store repo).acts.filter
        Action.isPut = []
    ∧ (store.mem (fullKey pfx (backupKey repo.name date)) = true →
        env.probeFault (fullKey pfx (backupKey repo.name date)) = false →
        (processRepo env ⟨true, false, false, pfx, date⟩ store repo).outcome
          = Outcome.skipped "already_exists") := by
  unfold processRepo processRepoBackup probe uploadToStore
  cases hf : env.probeFault (fullKey pfx (backupKey repo.name date)) with
  | true =>
      refine ⟨by simp [hf], by simp [hf], fun _ hcontra => ?_⟩
      simp at hcontra
  | false =>
      cases hm : store.mem (fullKey pfx (backupKey repo.name date)) with
      | true => exact ⟨by simp [hf, hm], by simp [hf, hm], fun _ _ => by simp [hf, hm]⟩
      | false =>
          rcases h with h | h | h | h
          · rw [hm] at h
            exact absurd h (by simp)
          · rw [hf] at h
            exact absurd h (by simp)
          · refine ⟨?_, ?_, fun hcontra _ => by simp [hm] at hcontra⟩ <;>
              simp [hf, hm, h, Action.isPut, List.filter]
          · cases hc : env.cloneOk repo.name with
            | false =>
                refine ⟨?_, ?_, fun hcontra _ => by simp [hm] at hcontra⟩ <;>
                  simp [hf, hm, hc, Action.isPut, List.filter]
            | true =>
                refine ⟨?_, ?_, fun hcontra _ => by simp [hm] at hcontra⟩ <;>
                  simp [hf, hm, hc, h, Action.isPut, List.filter]

/-- A succeeded iteration stores its backup key and proves its probe did
not fault. -/
theorem processRepo_succeeded (env : Env) (pfx date : String) (store : Store)
    (repo : Repo)
    (h : (processRepo env ⟨true, false, false, pfx, date⟩ store repo).outcome
        = Outcome.succeeded) :
    (processRepo env ⟨true, false, false, pfx, date⟩ store repo).store.mem
        (fullKey pfx (backupKey repo.name date)) = true
    ∧ env.probeFault (fullKey pfx (backupKey repo.name date)) = false := by
  unfold processRepo processRepoBackup probe uploadToStore at h ⊢
  cases hf : env.probeFault (fullKey pfx (backupKey repo.name date)) with
  | true => simp [hf] at h
  | false =>
      cases hm : store.mem (fullKey pfx (backupKey repo.name date)) with
      | true =>
          simp [hf, hm] at h
      | false =>
          cases hc : env.cloneOk repo.name with
          | false => simp [hf, hm, hc] at h
          | true =>
              cases hp : env.putOk (fullKey pfx (backupKey repo.name date)) with
              | false => simp [hf, hm, hc, hp] at h
              | true =>
                  cases hs : (env.putSize (fullKey pfx (backupKey repo.name date))
                      (env.archiveSize repo.name) == env.archiveSize repo.name) with
                  | false => simp [hf, hm, hc, hp, hs] at h
                  | true =>
                      refine ⟨?_, rfl⟩
                      simp [hf, hm, hc, hp, hs, Store.mem_putObj_self]

theorem recordOutcome_issues_none (res : Results) (repo : Repo) (st : StepResult)
    (h : st.issues = none) :
    recordOutcome res repo st = recordPrimary res repo st.outcome := by
  unfold recordOutcome
  rw [h]
  rfl

theorem recordIssues_skipped (res : Results) (repo : Repo) (io : Option IssuesOutcome) :
    (recordIssues res repo io).skipped = res.skipped := by
  cases io with
  | none => rfl
  | some i => cases i <;> rfl

theorem recordPrimary_skipped_mono (res : Results) (repo : Repo) (o : Outcome)
    (x : String × String) (h : x ∈ res.skipped) :
    x ∈ (recordPrimary res repo o).skipped := by
  cases o with
  | skipped r => exact List.mem_append_left _ h
  | wouldBackup k => exact h
  | succeeded => exact h
  | failed r => exact h

theorem runRepos_skipped_mono (env : Env) (cfg : BackupConfig) :
    ∀ (repos : List Repo) (store : Store) (res : Results) (tr : List Action)
      (x : String × String), x ∈ res.skipped →
      x ∈ (runRepos env cfg repos store res tr).1.skipped := by
  intro repos
  induction repos with
  | nil => intro store res tr x h; exact h
  | cons repo rest ih =>
      intro store res tr x h
      refine ih _ _ _ x ?_
      unfold recordOutcome
      rw [recordIssues_skipped]
      exact recordPrimary_skipped_mono res repo _ x h

/-- After a full run, every listed repository either has its backup key in
the final store or could never complete a put in this environment. -/
theorem runRepos_post (env : Env) (pfx date : String) :
    ∀ (repos : List Repo) (store : Store) (res : Results) (tr : List Action),
      ∀ r ∈ repos,
        (runRepos env ⟨true, false, false, pfx, date⟩ repos store res tr).2.1.mem
            (fullKey pfx (backupKey r.name date)) = true
        ∨ env.probeFault (fullKey pfx (backupKey r.name date)) = true
        ∨ env.cloneOk r.name = false
        ∨ env.putOk (fullKey pfx (backupKey r.name date)) = false := by
  intro repos
  induction repos with
  | nil => intro store res tr r hr; exact absurd hr (List.not_mem_nil r)
  | cons repo rest ih =>
      intro store res tr r hr
      rcases List.mem_cons.mp hr with rfl | hr'
      · rcases processRepo_post env pfx date store r with h | h | h | h
        · exact Or.inl (runRepos_mono env ⟨true, false, false, pfx, date⟩ rest _ _ _ _ h)
        · exact Or.inr (Or.inl h)
        · exact Or.inr (Or.inr (Or.inl h))
        · exact Or.inr (Or.inr (Or.inr h))
      · exact ih _ _ _ r hr'

/-- A run over repositories none of which can newly complete a put leaves
the store unchanged, performs no put, and records every repository whose
key is present (and whose probe does not fault) as skipped. -/
theorem runRepos_noop (env : Env) (pfx date : String) :
    ∀ (repos : List Repo) (s : Store) (res : Results) (tr : List Action),
      (∀ r ∈ repos,
        s.mem (fullKey pfx (backupKey r.name date)) = true
        ∨ env.probeFault (fullKey pfx (backupKey r.name date)) = true
        ∨ env.cloneOk r.name = false
        ∨ env.putOk (fullKey pfx (backupKey r.name date)) = false) →
      (runRepos env ⟨true, false, false, pfx, date⟩ repos s res tr).2.1 = s
      ∧ (runRepos env ⟨true, false, false, pfx, date⟩ repos s res tr).2.2.filter
          Action.isPut = tr.filter Action.isPut
      ∧ ∀ r ∈ repos, s.mem (fullKey pfx (backupKey r.name date)) = true →
          env.probeFault (fullKey pfx (backupKey r.name date)) = false →
          r.full_name ∈ ((runRepos env ⟨true, false, false, pfx, date⟩
              repos s res tr).1.skipped.map Prod.fst) := by
  intro repos
  induction repos with
  | nil =>
      intro s res tr hH
      exact ⟨rfl, rfl, fun r hr => absurd hr (List.not_mem_nil r)⟩
  | cons repo rest ih =>
      intro s res tr hH
      obtain ⟨hs, ha, ho⟩ :=
        processRepo_noop env pfx date s repo (hH repo (List.mem_cons_self _ _))
      have hrest := fun r hr => hH r (List.mem_cons_of_mem _ hr)
      simp only [runRepos]
      rw [hs]
      obtain ⟨ih1, ih2, ih3⟩ := ih s
        (recordOutcome res repo (processRepo env ⟨true, false, false, pfx, date⟩ s repo))
        (tr ++ (processRepo env ⟨true, false, false, pfx, date⟩ s repo).acts) hrest
      refine ⟨ih1, ?_, ?_⟩
      · rw [ih2, List.filter_append, ha, List.append_nil]
      · intro r hr hmem hfault
        rcases List.mem_cons.mp hr with rfl | hr'
        · have hout := ho hmem hfault
          have hskip : (r.full_name, "already_exists")
              ∈ (recordOutcome res r
                  (processRepo env ⟨true, false, false, pfx, date⟩ s r)).skipped := by
            rw [recordOutcome_issues_none _ _ _ (processRepo_issues_none env pfx date s r),
              hout]
            exact List.mem_append_right _ (List.mem_singleton_self _)
          have hmono := runRepos_skipped_mono env ⟨true, false, false, pfx, date⟩ rest s
            (recordOutcome res r (processRepo env ⟨true, false, false, pfx, date⟩ s r))
            (tr ++ (processRepo env ⟨true, false, false, pfx, date⟩ s r).acts) _ hskip
          exact List.mem_map_of_mem Prod.fst hmono
        · exact ih3 r hr' hmem hfault

/-- Every name in the successful list of a run comes from a listed
repository whose backup key the run verifiably stored (and whose probe did
not fault). -/
theorem runRepos_successful_mem (env : Env) (pfx date : String) :
    ∀ (repos : List Repo) (store : Store) (res : Results) (tr : List Action)
      (n : String),
      n ∈ (runRepos env ⟨true, false, false, pfx, date⟩ repos store res tr).1.successful →
      n ∈ res.successful
      ∨ ∃ r ∈ repos, n = r.full_name
          ∧ (runRepos env ⟨true, false, false, pfx, date⟩ repos store res tr).2.1.mem
              (fullKey pfx (backupKey r.name date)) = true
          ∧ env.probeFault (fullKey pfx (backupKey r.name date)) = false := by
  intro repos
  induction repos with
  | nil => intro store res tr n h; exact Or.inl h
  | cons repo rest ih =>
      intro store res tr n h
      simp only [runRepos] at h ⊢
      rw [recordOutcome_issues_none _ _ _ (processRepo_issues_none env pfx date store repo)]
        at h
      rcases ih _ _ _ n h with hin | ⟨r, hr, h1, h2, h3⟩
      · cases hout : (processRepo env ⟨true, false, false, pfx, date⟩ store repo).outcome with
        | succeeded =>
            rw [hout] at hin
            simp only [recordPrimary] at hin
            rcases List.mem_append.mp hin with hin' | hin'
            · exact Or.inl hin'
            · obtain ⟨hmem, hfault⟩ := processRepo_succeeded env pfx date store repo hout
              refine Or.inr ⟨repo, List.mem_cons_self _ _,
                List.eq_of_mem_singleton hin', ?_, hfault⟩
              rw [recordOutcome_issues_none _ _ _
                (processRepo_issues_none env pfx date store repo)]
              exact runRepos_mono env ⟨true, false, false, pfx, date⟩ rest _ _ _ _ hmem
        | skipped rr =>
            rw [hout] at hin
            exact Or.inl hin
        | wouldBackup k =>
            rw [hout] at hin
            exact Or.inl hin
        | failed rr =>
            rw [hout] at hin
            exact Or.inl hin
      · refine Or.inr ⟨r, List.mem_cons_of_mem _ hr, h1, ?_, h3⟩
        rw [recordOutcome_issues_none _ _ _
          (processRepo_issues_none env pfx date store repo)]
        exact h2

/-- Environment whose existence probe always raises a non-ClientError
exception, with every other external step well-behaved. -/
def faultyProbeEnv : Env :=
  { probeFault := fun _ => true
    putOk := fun _ => true
    putSize := fun _ n => n
    cloneOk := fun _ => true
    archiveSize := fun _ => 100
    issuesExportOk := fun _ => true
    issuesJsonSize := fun _ => 10 }

/-- Environment whose clone subprocess always fails, with storage and the
issue export well-behaved. -/
def failingCloneEnv : Env :=
  { probeFault := fun _ => false
    putOk := fun _ => true
    putSize := fun _ n => n
    cloneOk := fun _ => false
    archiveSize := fun _ => 100
    issuesExportOk := fun _ => true
    issuesJsonSize := fun _ => 10 }

/-- A sample repository for the concrete runs. -/
def demoRepo : Repo := ⟨"demo", "quantecon/demo"⟩

/-- Environment in which every external step succeeds and the service
reports back the exact uploaded size. -/
def goodEnv : Env :=
  { probeFault := fun _ => false
    putOk := fun _ => true
    putSize := fun _ n => n
    cloneOk := fun _ => true
    archiveSize := fun _ => 100
    issuesExportOk := fun _ => true
    issuesJsonSize := fun _ => 10 }

/-- Environment in which every transport put completes (the object is
stored) but the service then reports a wrong ContentLength, so size
verification fails and upload_file returns false although the object
exists. -/
def mismatchEnv : Env :=
  { probeFault := fun _ => false
    putOk := fun _ => true
    putSize := fun _ n => n + 1
    cloneOk := fun _ => true
    archiveSize := fun _ => 100
    issuesExportOk := fun _ => true
    issuesJsonSize := fun _ => 10 }

/-! ## Claim theorems -/

/-- Claim C2, counterexample: backup_exists catches every ClientError, so
a storage error whose code is AccessDenied (not a not-found response) is
reported as the plain False result, not propagated as a distinct failure
signal as the claim states. -/
theorem claim_C2_counterexample :
    S3Handler.backup_exists (HeadResult.clientError "AccessDenied") = Except.ok false
      ∧ "AccessDenied" ≠ "404" :=
  ⟨rfl, by decide⟩

/-- Claim C2, amended: backup_exists returns false exactly when the head
call raises any botocore ClientError (not-found or otherwise), returns
true exactly when the object is found, and propagates exactly the
non-ClientError exceptions. -/
theorem claim_C2_amended (r : HeadResult) :
    (S3Handler.backup_exists r = Except.ok false ↔ ∃ c, r = HeadResult.clientError c)
    ∧ (S3Handler.backup_exists r = Except.ok true ↔ ∃ n, r = HeadResult.found n)
    ∧ ∀ m, (S3Handler.backup_exists r = Except.error m ↔ r = HeadResult.otherError m) := by
  cases r <;> simp [S3Handler.backup_exists]

/-- Claim C2, witness for the amended theorem at concrete inputs. -/
theorem claim_C2_amended_witness :
    S3Handler.backup_exists (HeadResult.found 5) = Except.ok true :=
  (claim_C2_amended (HeadResult.found 5)).2.1.mpr ⟨5, rfl⟩

/-- Claim C3: upload_file returns true exactly when the transport put
succeeded and the re-fetched object size equals the local file size; every
other combination (size mismatch, transport error, verification error)
yields false, and the function is total, so it never raises. -/
theorem claim_C3 (put : PutResult) (head : HeadResult) (localSize : Nat) :
    S3Handler.upload_file put head localSize = true ↔
      put = PutResult.ok ∧ head = HeadResult.found localSize := by
  cases put <;> cases head <;>
    simp [S3Handler.upload_file, S3Handler.verify_upload]

/-- Claim C3, witness: a verified upload of a 7-byte file reports true. -/
theorem claim_C3_witness :
    S3Handler.upload_file PutResult.ok (HeadResult.found 7) 7 = true :=
  (claim_C3 PutResult.ok (HeadResult.found 7) 7).mpr ⟨rfl, rfl⟩

/-- Claim C4: matches(N) is true exactly when N is in the exact-include
set or some include pattern matches a leading segment of N (the
prefix-anchored semantics of Pattern.match). -/
theorem claim_C4 (m : RepoMatcher) (name : String) :
    m.matches name = true ↔
      name ∈ m.repositories
        ∨ ∃ r ∈ m.patterns, ∃ p, p <+: name.data ∧ r.fullMatchL p = true := by
  simp [RepoMatcher.matches, List.any_eq_true, Regex.reMatch, Regex.matchL_iff_exists]

/-- Claim C4, witness: a matcher whose include patterns hold the literal
pattern qe- accepts the name qe-demo by a prefix-anchored match. -/
theorem claim_C4_witness :
    RepoMatcher.matches ⟨[lit "qe-"], [], false, [], []⟩ "qe-demo" = true :=
  (claim_C4 ⟨[lit "qe-"], [], false, [], []⟩ "qe-demo").mpr
    (Or.inr ⟨lit "qe-", List.mem_singleton_self _, "qe-".data, by decide, by decide⟩)

/-- Claim C5: the export document holds exactly the serialized non-pull-
request items, its issue list is sorted ascending by issue number, and the
two worked examples of the spec hold: issues 10 and 5 come out as [5, 10],
and a true issue 42 next to a pull request 99 comes out as exactly the one
record numbered 42. -/
theorem claim_C5 (repo ts : String) (raw : List RawIssue) :
    ((IssuesHandler.export_issues repo ts raw).issues).Perm
        ((raw.filter (fun i => !i.pull_request)).map IssuesHandler.serialize_issue)
    ∧ List.Sorted IssuesHandler.numberLe (IssuesHandler.export_issues repo ts raw).issues
    ∧ ((IssuesHandler.export_issues "q/demo" "ts"
          [mkIssue 42 "open" false, mkIssue 99 "open" true]).issues.map
            SerializedIssue.number) = [42]
    ∧ ((IssuesHandler.export_issues "q/demo" "ts"
          [mkIssue 10 "open" false, mkIssue 5 "closed" false]).issues.map
            SerializedIssue.number) = [5, 10] :=
  ⟨List.perm_insertionSort IssuesHandler.numberLe _,
   List.sorted_insertionSort IssuesHandler.numberLe _,
   by decide, by decide⟩

/-- Claim C5, witness at a concrete input. -/
theorem claim_C5_witness :
    ((IssuesHandler.export_issues "q/demo" "ts"
        [mkIssue 42 "open" false, mkIssue 99 "open" true]).issues.map
          SerializedIssue.number) = [42] :=
  (claim_C5 "q/demo" "ts" []).2.2.1

/-- Claim C10: the summary counts of the export document count exactly the
retained issues: total equals open plus closed, and total equals the
length of the issue list. -/
theorem claim_C10 (repo ts : String) (raw : List RawIssue) :
    (IssuesHandler.export_issues repo ts raw).metadata.total_issues
        = (IssuesHandler.export_issues repo ts raw).metadata.open_issues
          + (IssuesHandler.export_issues repo ts raw).metadata.closed_issues
    ∧ (IssuesHandler.export_issues repo ts raw).metadata.total_issues
        = (IssuesHandler.export_issues repo ts raw).issues.length := by
  refine ⟨?_, rfl⟩
  show (List.insertionSort IssuesHandler.numberLe
      ((raw.filter (fun i : RawIssue => !i.pull_request)).map
        IssuesHandler.serialize_issue)).length = _
  rw [(List.perm_insertionSort IssuesHandler.numberLe _).length_eq, List.length_map]
  exact (length_filter_add_length_filter_not
    (fun i : RawIssue => i.state == "open") _).symm

/-- Claim C1, counterexample: issues enabled, simulate off, the clone of
one repository fails, so its primary outcome is failed — and the issue
export is not attempted at all (no issue outcome is recorded), contrary
to the claim that it is attempted regardless of the primary outcome. -/
theorem claim_C1_counterexample :
    (processRepo failingCloneEnv ⟨true, false, true, "backups/", "20251012"⟩
        [] demoRepo).issues = none
    ∧ (processRepo failingCloneEnv ⟨true, false, true, "backups/", "20251012"⟩
        [] demoRepo).outcome = Outcome.failed "upload_failed" := by
  exact ⟨rfl, rfl⟩

/-- Claim C1, amended: with issue export enabled and simulate mode off,
the issue export is attempted exactly when the primary outcome is skipped
or succeeded — not when it is failed — and whenever it is attempted its
result adds exactly one entry to the parallel issue outcome set. -/
theorem claim_C1_amended (env : Env) (skipE : Bool) (pfx date : String)
    (store : Store) (repo : Repo) :
    ((processRepo env ⟨skipE, false, true, pfx, date⟩ store repo).issues.isSome = true
      ↔ ((processRepo env ⟨skipE, false, true, pfx, date⟩ store repo).outcome
            = Outcome.skipped "already_exists"
          ∨ (processRepo env ⟨skipE, false, true, pfx, date⟩ store repo).outcome
              = Outcome.succeeded))
    ∧ ∀ res : Results,
        ((recordOutcome res repo
            (processRepo env ⟨skipE, false, true, pfx, date⟩ store repo)).issuesNames).Perm
          (res.issuesNames
            ++ (if (processRepo env ⟨skipE, false, true, pfx, date⟩
                  store repo).issues.isSome then [repo.full_name] else [])) := by
  constructor
  · unfold processRepo processRepoBackup probe
    cases skipE with
    | false =>
        cases hc : env.cloneOk repo.name with
        | false => simp [hc]
        | true =>
            simp only [hc]
            unfold uploadToStore
            cases hp : env.putOk (fullKey pfx (backupKey repo.name date)) with
            | false => simp [hp]
            | true =>
                cases hs : (env.putSize (fullKey pfx (backupKey repo.name date))
                    (env.archiveSize repo.name) == env.archiveSize repo.name) with
                | false => simp [hp, hs]
                | true => simp [hp, hs]
    | true =>
        cases hf : env.probeFault (fullKey pfx (backupKey repo.name date)) with
        | true => simp [hf]
        | false =>
            cases hm : store.mem (fullKey pfx (backupKey repo.name date)) with
            | true => simp [hf, hm]
            | false =>
                cases hc : env.cloneOk repo.name with
                | false => simp [hf, hm, hc]
                | true =>
                    simp only [hf, hm, hc]
                    unfold uploadToStore
                    cases hp : env.putOk (fullKey pfx (backupKey repo.name date)) with
                    | false => simp [hp]
                    | true =>
                        cases hs : (env.putSize (fullKey pfx (backupKey repo.name date))
                            (env.archiveSize repo.name) == env.archiveSize repo.name) with
                        | false => simp [hp, hs]
                        | true => simp [hp, hs]
  · intro res
    have h := recordIssues_issuesNames
      (recordPrimary res repo
        (processRepo env ⟨skipE, false, true, pfx, date⟩ store repo).outcome)
      repo (processRepo env ⟨skipE, false, true, pfx, date⟩ store repo).issues
    rw [recordPrimary_issuesNames] at h
    exact h

/-- Claim C1, witness for the amended theorem: a repository whose backup
key already exists is skipped, and the issue export is still attempted. -/
theorem claim_C1_amended_witness :
    (processRepo failingCloneEnv ⟨true, false, true, "backups/", "20251012"⟩
        [(fullKey "backups/" (backupKey "demo" "20251012"), 1)] demoRepo).issues.isSome
      = true :=
  (claim_C1_amended failingCloneEnv true "backups/" "20251012"
      [(fullKey "backups/" (backupKey "demo" "20251012"), 1)] demoRepo).1.mpr
    (Or.inl (by decide))

/-- Claim C6, counterexample: with issue export enabled, the second
same-day skip-existing run is not upload-free.  In this environment every
transport put completes but size verification fails, so run 1 stores the
backup object yet records the repository as failed and never attempts the
issue backup; run 2 finds the backup key, records skipped, and its
still-attempted issue backup completes a brand-new put — the second run's
trace contains a completed upload, and the second run's store differs
from the first run's.  This refutes the claimed zero-new-uploads
idempotence as stated. -/
theorem claim_C6_counterexample :
    (backup_repositories mismatchEnv ⟨true, false, true, "backups/", "20251012"⟩ [demoRepo]
        (backup_repositories mismatchEnv ⟨true, false, true, "backups/", "20251012"⟩
          [demoRepo] []).2.1).2.2.filter Action.isPut ≠ []
    ∧ (backup_repositories mismatchEnv ⟨true, false, true, "backups/", "20251012"⟩
        [demoRepo] []).1.failed ≠ []
    ∧ (backup_repositories mismatchEnv ⟨true, false, true, "backups/", "20251012"⟩ [demoRepo]
        (backup_repositories mismatchEnv ⟨true, false, true, "backups/", "20251012"⟩
          [demoRepo] []).2.1).2.1
      ≠ (backup_repositories mismatchEnv ⟨true, false, true, "backups/", "20251012"⟩
          [demoRepo] []).2.1 := by
  refine ⟨by decide, by decide, by decide⟩

/-- Claim C6, amended: with issue export disabled (as in every run started
from the command surface, which passes no backup_metadata), running the
backup loop twice over the same repository list, the same object-key
namespace and the same UTC date with skip-existing on (and simulate off)
performs zero new uploads on the second run — the store is unchanged and
the second trace contains no completed put — and every repository whose
first-run upload succeeded is found to exist and lands in the skipped
outcome of the second run.  The environment (subprocess results,
transport behaviour) is the same deterministic one for both runs.  With
issue export enabled the zero-new-uploads part fails, as the
counterexample shows. -/
theorem claim_C6 (env : Env) (pfx date : String) (repos : List Repo) (store0 : Store) :
    (backup_repositories env ⟨true, false, false, pfx, date⟩ repos
        (backup_repositories env ⟨true, false, false, pfx, date⟩ repos store0).2.1).2.1
      = (backup_repositories env ⟨true, false, false, pfx, date⟩ repos store0).2.1
    ∧ (backup_repositories env ⟨true, false, false, pfx, date⟩ repos
        (backup_repositories env ⟨true, false, false, pfx, date⟩
          repos store0).2.1).2.2.filter Action.isPut = []
    ∧ ∀ n ∈ (backup_repositories env ⟨true, false, false, pfx, date⟩
          repos store0).1.successful,
        n ∈ ((backup_repositories env ⟨true, false, false, pfx, date⟩ repos
            (backup_repositories env ⟨true, false, false, pfx, date⟩
              repos store0).2.1).1.skipped.map Prod.fst) := by
  simp only [backup_repositories]
  have hH := fun r hr => runRepos_post env pfx date repos store0
    { total_repos := repos.length, successful := [], failed := [], skipped := [],
      would_backup := [], issues_backup := ⟨[], [], []⟩, dry_run := false } [] r hr
  obtain ⟨h1, h2, h3⟩ := runRepos_noop env pfx date repos
    (runRepos env ⟨true, false, false, pfx, date⟩ repos store0
      { total_repos := repos.length, successful := [], failed := [], skipped := [],
        would_backup := [], issues_backup := ⟨[], [], []⟩, dry_run := false } []).2.1
    { total_repos := repos.length, successful := [], failed := [], skipped := [],
      would_backup := [], issues_backup := ⟨[], [], []⟩, dry_run := false } [] hH
  refine ⟨h1, by simpa using h2, ?_⟩
  intro n hn
  rcases runRepos_successful_mem env pfx date repos store0
      { total_repos := repos.length, successful := [], failed := [], skipped := [],
        would_backup := [], issues_backup := ⟨[], [], []⟩, dry_run := false } [] n hn with
    hin | ⟨r, hr, heq, hmem, hfault⟩
  · exact absurd hin (List.not_mem_nil n)
  · rw [heq]
    exact h3 r hr hmem hfault

/-- Claim C6, witness: with a well-behaved environment the second run over
one repository leaves the store of the first run unchanged. -/
theorem claim_C6_witness :
    (backup_repositories goodEnv ⟨true, false, false, "backups/", "20251012"⟩ [demoRepo]
        (backup_repositories goodEnv ⟨true, false, false, "backups/", "20251012"⟩
          [demoRepo] []).2.1).2.1
      = (backup_repositories goodEnv ⟨true, false, false, "backups/", "20251012"⟩
          [demoRepo] []).2.1 :=
  (claim_C6 goodEnv "backups/" "20251012" [demoRepo] []).1

/-- Claim C7: every processed repository lands in exactly one of the four
terminal outcome lists — the names recorded across skipped, would-backup,
succeeded and failed are a permutation of the processed repository list —
so a failure of one repository never prevents the remaining repositories
from being processed and recorded. -/
theorem claim_C7 (env : Env) (cfg : BackupConfig) (repos : List Repo) (store : Store) :
    ((backup_repositories env cfg repos store).1.outcomeNames).Perm
      (repos.map Repo.full_name) := by
  have h := runRepos_outcomeNames env cfg repos store
      { total_repos := repos.length, successful := [], failed := [], skipped := [],
        would_backup := [], issues_backup := ⟨[], [], []⟩, dry_run := cfg.dry_run } []
  simpa [backup_repositories, Results.outcomeNames] using h

/-- Claim C7, witness at a concrete run with a failing repository. -/
theorem claim_C7_witness :
    ((backup_repositories failingCloneEnv ⟨true, false, false, "backups/", "20251012"⟩
        [demoRepo] []).1.outcomeNames).Perm ([demoRepo].map Repo.full_name) :=
  claim_C7 failingCloneEnv ⟨true, false, false, "backups/", "20251012"⟩ [demoRepo] []

/-- Claim C9, counterexample: in simulate mode, a repository whose
existence probe raises a non-ClientError exception is recorded in the
failed list — neither in would-backup nor in skipped — contrary to the
claim that every repository lands in one of those two outcomes. -/
theorem claim_C9_counterexample :
    (backup_repositories faultyProbeEnv ⟨true, true, false, "backups/", "20251012"⟩
        [demoRepo] []).1.skipped = []
    ∧ (backup_repositories faultyProbeEnv ⟨true, true, false, "backups/", "20251012"⟩
        [demoRepo] []).1.would_backup = []
    ∧ (backup_repositories faultyProbeEnv ⟨true, true, false, "backups/", "20251012"⟩
        [demoRepo] []).1.failed ≠ [] := by
  exact ⟨rfl, rfl, by decide⟩

/-- Claim C9, amended: simulate mode never mutates blob storage and
performs no clone, archive, upload, or issue-export action at all; no
repository succeeds, and a repository can fail only because its read-only
existence probe raised — every other repository is recorded as skipped or
would-backup. -/
theorem claim_C9_amended (env : Env) (skipE issuesE : Bool) (pfx date : String)
    (repos : List Repo) (store : Store) :
    (backup_repositories env ⟨skipE, true, issuesE, pfx, date⟩ repos store).2.1 = store
    ∧ (backup_repositories env ⟨skipE, true, issuesE, pfx, date⟩ repos store).2.2 = []
    ∧ (backup_repositories env ⟨skipE, true, issuesE, pfx, date⟩ repos store).1.successful = []
    ∧ ∀ pr ∈ (backup_repositories env ⟨skipE, true, issuesE, pfx, date⟩ repos store).1.failed,
        ∃ repo ∈ repos, pr.1 = repo.full_name ∧ skipE = true
          ∧ env.probeFault (fullKey pfx (backupKey repo.name date)) = true := by
  simp only [backup_repositories]
  obtain ⟨h1, h2, h3, h4⟩ :=
    runRepos_dryRun_frame env ⟨skipE, true, issuesE, pfx, date⟩ rfl repos store
      { total_repos := repos.length, successful := [], failed := [], skipped := [],
        would_backup := [], issues_backup := ⟨[], [], []⟩, dry_run := true } []
  refine ⟨h1, h2, h3, ?_⟩
  intro pr hpr
  rcases h4 pr hpr with hin | ⟨r, hr, h5, h6, h7⟩
  · exact absurd hin (List.not_mem_nil pr)
  · exact ⟨r, hr, h5, h6, h7⟩

/-- Claim C9, witness: a concrete simulate-mode run leaves the store
untouched. -/
theorem claim_C9_amended_witness :
    (backup_repositories faultyProbeEnv ⟨true, true, false, "backups/", "20251012"⟩
        [demoRepo] []).2.1 = ([] : Store) :=
  (claim_C9_amended faultyProbeEnv true false "backups/" "20251012" [demoRepo] []).1

theorem backup_repositories_dry_run_field (env : Env) (cfg : BackupConfig)
    (repos : List Repo) (store : Store) :
    (backup_repositories env cfg repos store).1.dry_run = cfg.dry_run := by
  unfold backup_repositories
  rw [runRepos_dry_run]

/-- Claim C8, counterexample: a simulate-mode run whose only repository
fails (its existence probe raises) exits 0 even though the aggregate
failure list is non-empty, contrary to the claimed exit-code equivalence. -/
theorem claim_C8_counterexample :
    run_backup (some "token") true none (some "org") false true faultyProbeEnv
        "backups/" "20251012" [demoRepo] [] = 0
    ∧ (backup_repositories faultyProbeEnv
        { skip_existing := true, dry_run := true, issues_enabled := false,
          pfx := "backups/", date := "20251012" } [demoRepo] []).1.failed ≠ [] := by
  exact ⟨by decide, by decide⟩

/-- Claim C8, amended: with the configuration present and backup enabled,
the exit code is 1 exactly when the auth token is missing, the resolved
organization is missing, or the run is not in simulate mode and its
failure list is non-empty; simulate-mode runs exit 0 once the required
inputs are present, even when repositories failed. -/
theorem claim_C8_amended (token arg_org cfg_org : Option String) (force dry_run : Bool)
    (env : Env) (pfx date : String) (repos : List Repo) (store : Store) :
    run_backup token true arg_org cfg_org force dry_run env pfx date repos store = 1
      ↔ strFalsy token = true
        ∨ strFalsy (if strFalsy arg_org then cfg_org else arg_org) = true
        ∨ (dry_run = false
            ∧ (backup_repositories env
                { skip_existing := !force, dry_run := dry_run, issues_enabled := false,
                  pfx := pfx, date := date } repos store).1.failed ≠ []) := by
  by_cases ht : strFalsy token = true
  · simp [run_backup, ht]
  · by_cases ho : strFalsy (if strFalsy arg_org then cfg_org else arg_org) = true
    · simp [run_backup, ht, ho]
    · have hd := backup_repositories_dry_run_field env
        { skip_existing := !force, dry_run := dry_run, issues_enabled := false,
          pfx := pfx, date := date } repos store
      cases hdr : dry_run with
      | true =>
          rw [hdr] at hd
          simp [run_backup, ht, ho, hd]
      | false =>
          rw [hdr] at hd
          cases hfe : (backup_repositories env
              { skip_existing := !force, dry_run := false, issues_enabled := false,
                pfx := pfx, date := date } repos store).1.failed with
          | nil => simp [run_backup, ht, ho, hd, hfe]
          | cons x xs => simp [run_backup, ht, ho, hd, hfe]

/-- Claim C8, witness: a run with no auth token exits 1. -/
theorem claim_C8_amended_witness :
    run_backup none true none none false false faultyProbeEnv
        "backups/" "20251012" [] [] = 1 :=
  (claim_C8_amended none none none false false faultyProbeEnv
      "backups/" "20251012" [] []).mpr (Or.inl rfl)

/-- Claim C10, witness at a concrete input. -/
theorem claim_C10_witness :
    (IssuesHandler.export_issues "q/demo" "ts"
        [mkIssue 42 "open" false, mkIssue 99 "closed" false]).metadata.total_issues
      = (IssuesHandler.export_issues "q/demo" "ts"
          [mkIssue 42 "open" false, mkIssue 99 "closed" false]).metadata.open_issues
        + (IssuesHandler.export_issues "q/demo" "ts"
            [mkIssue 42 "open" false, mkIssue 99 "closed" false]).metadata.closed_issues :=
  (claim_C10 "q/demo" "ts" [mkIssue 42 "open" false, mkIssue 99 "closed" false]).1

end WorkflowBackups
